import Mathlib

/-!
Shallow embedding of the expense-approval engine of the
Employee-expense-management backend
(`app/database/services/expense_approval_service.py` and
`app/database/services/approval_service.py`), together with theorems
settling the frozen claims about it.

Python floats are modelled as exact rationals; database rows are Lean
structures; SQLAlchemy queries over one expense's rows are list
operations in row order; exceptions are `Except` values.
-/

namespace ExpenseApproval

/-- Task status column of `expense_approvals.status`:
"pending", "approved", "rejected", "auto_approved". -/
inductive TaskStatus
  | pending
  | approved
  | rejected
  | auto_approved
deriving DecidableEq, Repr

/-- Expense status column of `expenses.status`:
"pending", "approved", "rejected", "in_progress". -/
inductive ExpStatus
  | pending
  | in_progress
  | approved
  | rejected
deriving DecidableEq, Repr

/-- One row of `approval_steps` (model `ApprovalStep`). -/
structure RuleStep where
  approver_id : Nat
  sequence_order : Int
  required : Bool
deriving DecidableEq, Repr

/-- One row of `approval_rules` (model `ApprovalRule`):
`approver_sequence` is 1 for sequential, 0 for parallel. -/
structure Rule where
  is_manager_approver : Bool
  manager_id : Option Nat
  approver_sequence : Int
  min_approval_percentage : Rat
  steps : List RuleStep
deriving DecidableEq, Repr

/-- One row of `expense_approvals` (model `ExpenseApproval`), as seen by the
single-expense engine funcs. -/
structure ApprovalTask where
  approver_id : Nat
  sequence_order : Int
  is_manager_approval : Bool
  status : TaskStatus
  comments : Option String
deriving DecidableEq, Repr

/-- Fixed system comment written by `_auto_approve_expense`. -/
def autoComment : String := "Auto-approved due to minimum percentage threshold met"

/-- Python truthiness of an optional integer foreign key
(`safe_getattr(approval_rule, 'manager_id')` used as a condition). -/
def managerIdTruthy : Option Nat → Bool
  | none => false
  | some m => m != 0

/-- Inline numerator in `check_expense_approval_status` (line 158):
`sum(1 for approval in approvals if status == "approved")`. -/
def approved_count_inline (tasks : List ApprovalTask) : Nat :=
  (tasks.filter (fun a => a.status == TaskStatus.approved)).length

/-- Inline denominator in `check_expense_approval_status` (line 159):
`sum(1 for approval in approvals if status in ["pending", "approved"])`. -/
def total_required_inline (tasks : List ApprovalTask) : Nat :=
  (tasks.filter (fun a =>
    a.status == TaskStatus.pending || a.status == TaskStatus.approved)).length

/-- Inline percentage in `check_expense_approval_status` (line 161). -/
def approval_percentage_inline (tasks : List ApprovalTask) : Rat :=
  if 0 < total_required_inline tasks then
    (approved_count_inline tasks : Rat) / (total_required_inline tasks : Rat) * 100
  else 0

/-- Manager-approval flag computed identically in
`check_expense_approval_status` (lines 164-167) and in
`_build_approval_status_response` (lines 504-508): true when the rule has no
manager gate, else true iff the first manager task exists with status
exactly "approved". -/
def manager_approved_of (rule : Rule) (tasks : List ApprovalTask) : Bool :=
  if rule.is_manager_approver then
    match tasks.find? (fun a => a.is_manager_approval) with
    | some m => m.status == TaskStatus.approved
    | none => false
  else true

/-- Next-approver value returned by `_check_approval_progression`: either a
single approver (Python reports the user's name) or a count of parallel
approvers (Python reports the string "n approvers"). -/
inductive NextApprover
  | approver (id : Nat)
  | group (count : Nat)
deriving DecidableEq, Repr

/-- Sort non-manager tasks ascending by `sequence_order`
(`non_manager_approvals.sort(key=...)` / `order_by(sequence_order)`). -/
def sortBySeq (l : List ApprovalTask) : List ApprovalTask :=
  l.mergeSort (fun a b => a.sequence_order ≤ b.sequence_order)

/-- Loop body of the sequential branch of `_check_approval_progression`
(lines 243-247): first pending task is next; a rejected task before any
pending one kills progression. -/
def progressionLoopSeq : List ApprovalTask → Bool × Option NextApprover
  | [] => (true, none)
  | a :: rest =>
    if a.status == TaskStatus.pending then (true, some (NextApprover.approver a.approver_id))
    else if a.status == TaskStatus.rejected then (false, none)
    else progressionLoopSeq rest

/-- Embeds `_check_approval_progression` (lines 229-255). -/
def check_approval_progression (tasks : List ApprovalTask) (rule : Rule)
    (managerApproved : Bool) : Bool × Option NextApprover :=
  match (if rule.is_manager_approver && !managerApproved then
           tasks.find? (fun a => a.is_manager_approval)
         else none) with
  | some m => (false, some (NextApprover.approver m.approver_id))
  | none =>
    if rule.approver_sequence == 1 then
      progressionLoopSeq (sortBySeq (tasks.filter (fun a => !a.is_manager_approval)))
    else
      let pendings := tasks.filter (fun a =>
        a.status == TaskStatus.pending && !a.is_manager_approval)
      if 0 < pendings.length then (true, some (NextApprover.group pendings.length))
      else (true, none)

/-- Loop body of `_check_sequential_requirements` (lines 267-277): a rejected
task fails; a pending task with a later task already "approved" fails. -/
def seqReqLoop : List ApprovalTask → Bool
  | [] => true
  | a :: rest =>
    if a.status == TaskStatus.rejected then false
    else if a.status == TaskStatus.pending
            && rest.any (fun b => b.status == TaskStatus.approved) then false
    else seqReqLoop rest

/-- Embeds `_check_sequential_requirements` (lines 257-279). -/
def check_sequential_requirements (tasks : List ApprovalTask) (rule : Rule) : Bool :=
  if rule.approver_sequence == 0 then true
  else seqReqLoop (sortBySeq (tasks.filter (fun a => !a.is_manager_approval)))

/-- Inline full-approval verdict of `check_expense_approval_status`
(lines 175-179). -/
def is_fully_approved_inline (tasks : List ApprovalTask) (rule : Rule) : Bool :=
  decide (rule.min_approval_percentage ≤ approval_percentage_inline tasks)
    && manager_approved_of rule tasks
    && check_sequential_requirements tasks rule

/-- Snapshot numerator of `_build_approval_status_response` (line 499):
count of tasks with status exactly "approved". -/
def approved_count_resp (tasks : List ApprovalTask) : Nat :=
  (tasks.filter (fun a => a.status == TaskStatus.approved)).length

/-- Snapshot percentage of `_build_approval_status_response` (lines 500-501):
denominator is the whole task list. -/
def approval_percentage_resp (tasks : List ApprovalTask) : Rat :=
  if 0 < tasks.length then
    (approved_count_resp tasks : Rat) / (tasks.length : Rat) * 100
  else 0

/-- Snapshot full-approval verdict of `_build_approval_status_response`
(lines 516-521). -/
def is_fully_approved_resp (tasks : List ApprovalTask) (rule : Rule) : Bool :=
  decide (rule.min_approval_percentage ≤ approval_percentage_resp tasks)
    && manager_approved_of rule tasks
    && check_sequential_requirements tasks rule

/-- Task rewrite done by `_auto_approve_expense` (lines 363-366) on each
pending row of the expense. -/
def sweepTask (t : ApprovalTask) : ApprovalTask :=
  if t.status == TaskStatus.pending then
    { t with status := TaskStatus.auto_approved, comments := some autoComment }
  else t

/-- Fields of `ExpenseApprovalStatusResponse` relevant to the claims; the
pending/completed lists carry the pre-sweep task rows the Python response
objects were built from. -/
structure StatusResponse where
  current_status : ExpStatus
  is_fully_approved : Bool
  approval_percentage : Rat
  required_percentage : Rat
  next_approver : Option NextApprover
  pending_tasks : List ApprovalTask
  completed_tasks : List ApprovalTask
  manager_approval_required : Bool
  manager_approved : Bool
  sequential_approval : Bool
  can_proceed_to_next_step : Bool
deriving DecidableEq, Repr

/-- Result of an engine call on one expense: final expense status, final task
rows of the expense, whether the `_auto_approve_expense` sweep fired, and the
returned snapshot. -/
structure EngineOut where
  status : ExpStatus
  tasks : List ApprovalTask
  sweep : Bool
  resp : StatusResponse
deriving DecidableEq, Repr

/-- Embeds `_build_approval_status_response` (lines 451-546), including its
`_auto_approve_expense` side effect (lines 523-529): the sweep fires iff the
snapshot verdict holds and the expense status on entry to the builder is not
already "approved". -/
def build_approval_status_response (st : ExpStatus) (tasks : List ApprovalTask)
    (rule : Option Rule) : EngineOut :=
  match rule with
  | none =>
    { status := st, tasks := tasks, sweep := false,
      resp := {
        current_status := st
        is_fully_approved := st == ExpStatus.approved
        approval_percentage := 100
        required_percentage := 0
        next_approver := none
        pending_tasks := []
        completed_tasks := []
        manager_approval_required := false
        manager_approved := true
        sequential_approval := false
        can_proceed_to_next_step := true } }
  | some rule =>
    let pendings := tasks.filter (fun a => a.status == TaskStatus.pending)
    let completed := tasks.filter (fun a => !(a.status == TaskStatus.pending))
    let mgrOk := manager_approved_of rule tasks
    let prog := check_approval_progression tasks rule mgrOk
    let fully := is_fully_approved_resp tasks rule
    let doSweep := fully && !(st == ExpStatus.approved)
    { status := if doSweep then ExpStatus.approved else st
      tasks := if doSweep then tasks.map sweepTask else tasks
      sweep := doSweep
      resp := {
        current_status := if doSweep then ExpStatus.approved else st
        is_fully_approved := fully
        approval_percentage := approval_percentage_resp tasks
        required_percentage := rule.min_approval_percentage
        next_approver := prog.2
        pending_tasks := pendings
        completed_tasks := completed
        manager_approval_required := rule.is_manager_approver
        manager_approved := mgrOk
        sequential_approval := rule.approver_sequence == 1
        can_proceed_to_next_step := prog.1 } }

/-- Embeds `check_expense_approval_status` (lines 132-197) for an existing
expense: `st` is the stored expense status, `tasks` its approval rows,
`rule` the submitter's rule row if any. -/
def check_expense_approval_status (st : ExpStatus) (tasks : List ApprovalTask)
    (rule : Option Rule) : EngineOut :=
  match rule with
  | none =>
    let st1 := if st == ExpStatus.pending then ExpStatus.approved else st
    let b := build_approval_status_response st1 [] none
    { b with tasks := tasks }
  | some rule =>
    let fully := is_fully_approved_inline tasks rule
    let st1 :=
      if fully && !(st == ExpStatus.approved) then ExpStatus.approved
      else if tasks.any (fun a => a.status == TaskStatus.rejected)
              && !(st == ExpStatus.rejected) then ExpStatus.rejected
      else st
    build_approval_status_response st1 tasks (some rule)

/-- Errors raised by the services (`app/logic/exceptions.py` plus the local
not-found classes): validation, not-found, and wrapped persistence errors. -/
inductive SvcError
  | validation (msg : String)
  | notFound (msg : String)
  | database (msg : String)
deriving DecidableEq, Repr

/-- Embeds `_can_manager_approve_now` (lines 281-341) on the non-exceptional
path, for an expense that exists: `rule` is the submitter's rule row if any,
`tasks` the expense's approval rows, `acting` the approval row being acted
on. The `manager_id` parameter of the Python function is unused by its body
and therefore omitted. -/
def can_manager_approve_now (expenseFound : Bool) (rule : Option Rule)
    (tasks : List ApprovalTask) (acting : ApprovalTask) : Bool :=
  if !expenseFound then false
  else
    match rule with
    | none => true
    | some rule =>
      if acting.is_manager_approval && rule.is_manager_approver then true
      else if rule.is_manager_approver && !acting.is_manager_approval
              && !(tasks.any (fun a =>
                    a.is_manager_approval && a.status == TaskStatus.approved)) then
        false
      else if rule.approver_sequence == 1 then
        !((tasks.filter (fun a => !a.is_manager_approval)).any (fun prev =>
            prev.sequence_order < acting.sequence_order
              && !(prev.status == TaskStatus.approved)))
      else true

/-- First pending approval row for the given approver
(`query(...).filter(expense_id, approver_id, status == "pending").first()`). -/
def findPendingFor (tasks : List ApprovalTask) (aid : Nat) : Option ApprovalTask :=
  tasks.find? (fun t => t.approver_id == aid && t.status == TaskStatus.pending)

/-- Mutate, in place, the first pending row for the given approver. -/
def setFirstPendingWith : List ApprovalTask → Nat → (ApprovalTask → ApprovalTask) →
    List ApprovalTask
  | [], _, _ => []
  | t :: rest, aid, f =>
    if t.approver_id == aid && t.status == TaskStatus.pending then f t :: rest
    else t :: setFirstPendingWith rest aid f

/-- Embeds `approve_expense` (lines 375-411) for an existing expense: find
the pending row, re-check eligibility, mark it approved (comments only when
given), then re-evaluate via `check_expense_approval_status`. -/
def approve_expense (st : ExpStatus) (tasks : List ApprovalTask)
    (rule : Option Rule) (approver : Nat) (comments : Option String) :
    Except SvcError EngineOut :=
  match findPendingFor tasks approver with
  | none => Except.error (SvcError.validation "No pending approval found")
  | some approval =>
    if !(can_manager_approve_now true rule tasks approval) then
      Except.error (SvcError.validation
        "Cannot approve at this time. Previous approvals may be required first.")
    else
      let tasks1 := setFirstPendingWith tasks approver (fun t =>
        { t with status := TaskStatus.approved,
                 comments := match comments with
                             | some c => some c
                             | none => t.comments })
      Except.ok (check_expense_approval_status st tasks1 rule)

/-- Embeds `reject_expense` (lines 413-449) for an existing expense: find the
pending row, mark it rejected with the comments, set the expense status to
rejected, then re-evaluate. No eligibility re-check occurs on this path. -/
def reject_expense (st : ExpStatus) (tasks : List ApprovalTask)
    (rule : Option Rule) (approver : Nat) (comments : String) :
    Except SvcError EngineOut :=
  match findPendingFor tasks approver with
  | none => Except.error (SvcError.validation "No pending approval found")
  | some _ =>
    let tasks1 := setFirstPendingWith tasks approver (fun t =>
      { t with status := TaskStatus.rejected, comments := some comments })
    Except.ok (check_expense_approval_status ExpStatus.rejected tasks1 rule)

/-- Embeds `initiate_expense_approval` (lines 32-98) for an existing expense:
`prior` are the expense's pre-existing approval rows (deleted only on the
rule branch), and the created rows are one manager row (sequence 0) when the
gate and manager id are set, then one row per rule step. -/
def initiate_expense_approval (st : ExpStatus) (prior : List ApprovalTask)
    (rule : Option Rule) : EngineOut :=
  match rule with
  | none =>
    let b := build_approval_status_response ExpStatus.approved [] none
    { b with tasks := prior }
  | some rule =>
    let managerTasks : List ApprovalTask :=
      if rule.is_manager_approver && managerIdTruthy rule.manager_id then
        [{ approver_id := rule.manager_id.getD 0, sequence_order := 0,
           is_manager_approval := true, status := TaskStatus.pending,
           comments := none }]
      else []
    let stepTasks : List ApprovalTask := rule.steps.map (fun s =>
      { approver_id := s.approver_id, sequence_order := s.sequence_order,
        is_manager_approval := false, status := TaskStatus.pending,
        comments := none })
    build_approval_status_response ExpStatus.in_progress
      (managerTasks ++ stepTasks) (some rule)

/-- Embeds the sequence-order validation shared by `create_approval_rule`
(approval_service.py lines 61-66) and `update_approval_rule` (lines 207-212):
duplicates raise ValidationError; then Python's `min`/`max` on an empty list
raise ValueError, which the surrounding handler wraps as a DatabaseError;
otherwise min must be 1 and max must be the length. -/
def validate_sequence_orders (orders : List Int) : Except SvcError Unit :=
  if orders.dedup.length != orders.length then
    Except.error (SvcError.validation "Duplicate sequence orders not allowed")
  else
    match orders.min?, orders.max? with
    | some mn, some mx =>
      if mn != 1 || mx != (orders.length : Int) then
        Except.error (SvcError.validation
          "Sequence orders must start from 1 and be consecutive")
      else Except.ok ()
    | _, _ => Except.error (SvcError.database "min() arg is an empty sequence")

/-- Fallible database seen by `_can_manager_approve_now`: each query can
raise. `get_expense` yields the expense's `submitted_by` when the expense
exists; `manager_approval_approved` is the filtered existence query of
lines 306-312; `non_manager_tasks` is the query of lines 321-326. -/
structure FallibleDb where
  get_expense : Except String (Option Nat)
  get_rule : Nat → Except String (Option Rule)
  manager_approval_approved : Except String Bool
  non_manager_tasks : Except String (List ApprovalTask)

/-- Body of `_can_manager_approve_now` (the `try` block, lines 284-337) over
a fallible database. -/
def can_approve_body (db : FallibleDb) (acting : ApprovalTask) :
    Except String Bool := do
  let e ← db.get_expense
  match e with
  | none => pure false
  | some submitted_by =>
    let r ← db.get_rule submitted_by
    match r with
    | none => pure true
    | some rule =>
      if acting.is_manager_approval && rule.is_manager_approver then pure true
      else do
        let blocked ←
          if rule.is_manager_approver && !acting.is_manager_approval then do
            let ok ← db.manager_approval_approved
            pure (!ok)
          else pure false
        if blocked then pure false
        else if rule.approver_sequence == 1 then do
          let nm ← db.non_manager_tasks
          pure (!(nm.any (fun prev =>
            prev.sequence_order < acting.sequence_order
              && !(prev.status == TaskStatus.approved))))
        else pure true

/-- The full `_can_manager_approve_now` with its catch-all handler
(lines 339-341): on any error the function returns true (fail open). -/
def can_approve_now_guarded (db : FallibleDb) (acting : ApprovalTask) : Bool :=
  match can_approve_body db acting with
  | Except.ok b => b
  | Except.error _ => true

section Database

/-- One row of `expenses` as the engine sees it. -/
structure ExpenseRec where
  id : Nat
  submitted_by : Nat
  status : ExpStatus
deriving DecidableEq, Repr

/-- One row of `expense_approvals` with its expense foreign key. -/
structure TaskRow where
  expense_id : Nat
  approver_id : Nat
  sequence_order : Int
  is_manager_approval : Bool
  status : TaskStatus
  comments : Option String
deriving DecidableEq, Repr

/-- Forget the expense key of a task row. -/
def TaskRow.toTask (r : TaskRow) : ApprovalTask :=
  { approver_id := r.approver_id, sequence_order := r.sequence_order,
    is_manager_approval := r.is_manager_approval, status := r.status,
    comments := r.comments }

/-- Database state: expense rows, approval rules keyed by `user_id`, and
approval task rows. -/
structure Db where
  expenses : List ExpenseRec
  rules : List (Nat × Rule)
  tasks : List TaskRow
deriving DecidableEq, Repr

/-- First expense row with the given id (`query(Expense).filter(id).first()`). -/
def findExpense (db : Db) (eid : Nat) : Option ExpenseRec :=
  db.expenses.find? (fun e => e.id == eid)

/-- First rule row for the given submitter
(`query(ApprovalRule).filter(user_id).first()`). -/
def findRule (db : Db) (uid : Nat) : Option Rule :=
  (db.rules.find? (fun p => p.1 == uid)).map (fun p => p.2)

/-- Approval rows of one expense, in row order (`expense.approvals`). -/
def tasksOf (db : Db) (eid : Nat) : List ApprovalTask :=
  (db.tasks.filter (fun r => r.expense_id == eid)).map TaskRow.toTask

/-- Submitter of one expense, when it exists. -/
def submitterOf (db : Db) (eid : Nat) : Option Nat :=
  (findExpense db eid).map (fun e => e.submitted_by)

/-- Status of one expense, when it exists. -/
def statusOf (db : Db) (eid : Nat) : Option ExpStatus :=
  (findExpense db eid).map (fun e => e.status)

/-- Write the status column of one expense. -/
def setExpenseStatus (db : Db) (eid : Nat) (s : ExpStatus) : Db :=
  { db with expenses := db.expenses.map (fun e =>
      if e.id == eid then { e with status := s } else e) }

/-- Row-level rewrite of `_auto_approve_expense` on one task row. -/
def sweepRow (r : TaskRow) : TaskRow :=
  if r.status == TaskStatus.pending then
    { r with status := TaskStatus.auto_approved, comments := some autoComment }
  else r

/-- Apply the `_auto_approve_expense` sweep to every row of one expense. -/
def sweepExpenseTasks (db : Db) (eid : Nat) : Db :=
  { db with tasks := db.tasks.map (fun r =>
      if r.expense_id == eid then sweepRow r else r) }

/-- Embeds `check_expense_approval_status` against the database: looks up the
expense and its submitter's rule, runs the single-expense evaluation, and
writes back the status and (on a sweep) the task rows. Returns `none` when
the expense does not exist (ExpenseNotFoundError). -/
def check_status_db (db : Db) (eid : Nat) : Db × Option StatusResponse :=
  match findExpense db eid with
  | none => (db, none)
  | some e =>
    let out := check_expense_approval_status e.status (tasksOf db eid)
      (findRule db e.submitted_by)
    let db1 := setExpenseStatus db eid out.status
    let db2 := if out.sweep then sweepExpenseTasks db1 eid else db1
    (db2, some out.resp)

/-- Embeds `_auto_approve_expense` (lines 343-373) against the database. -/
def auto_approve_expense_db (db : Db) (eid : Nat) : Db :=
  match findExpense db eid with
  | none => db
  | some _ => sweepExpenseTasks (setExpenseStatus db eid ExpStatus.approved) eid

/-- Embeds `_can_manager_approve_now` against the database. -/
def can_approve_now_db (db : Db) (eid : Nat) (acting : TaskRow) : Bool :=
  match findExpense db eid with
  | none => false
  | some e =>
    can_manager_approve_now true (findRule db e.submitted_by) (tasksOf db eid)
      acting.toTask

/-- Fields of `PendingReviewRequest` relevant to the claims. -/
structure Review where
  expense_id : Nat
  my_approval_step : Int
  is_manager_approval : Bool
  can_approve_now : Bool
deriving DecidableEq, Repr

/-- Loop body of `get_manager_pending_reviews` (lines 620-668): re-evaluate
the expense; if the snapshot says fully approved, auto-approve and skip;
otherwise filter by eligibility and append the review. -/
def pending_reviews_step (acc : Db × List Review) (t : TaskRow) :
    Db × List Review :=
  match findExpense acc.1 t.expense_id with
  | none => acc
  | some e =>
    let r := check_status_db acc.1 e.id
    match r.2 with
    | none => (r.1, acc.2)
    | some resp =>
      if resp.is_fully_approved then
        (auto_approve_expense_db r.1 e.id, acc.2)
      else
        let can := can_approve_now_db r.1 e.id t
        if !can then (r.1, acc.2)
        else
          (r.1, acc.2 ++ [{ expense_id := e.id,
                            my_approval_step := t.sequence_order,
                            is_manager_approval := t.is_manager_approval,
                            can_approve_now := can }])

/-- Embeds `get_manager_pending_reviews` (lines 601-678): iterate over the
approver's pending rows, threading the database through the loop's
side effects. -/
def get_manager_pending_reviews (db : Db) (m : Nat) : Db × List Review :=
  (db.tasks.filter (fun t =>
    t.approver_id == m && t.status == TaskStatus.pending)).foldl
    pending_reviews_step (db, [])

/-- Observer used to state the pending-view claim: what the snapshot of a
fresh `check_expense_approval_status` call on the current database would
report as `is_fully_approved` (the condition under which the view
auto-approves and skips). -/
def expense_fully_approved_now (db : Db) (eid : Nat) : Bool :=
  match statusOf db eid, submitterOf db eid with
  | some st, some uid =>
    (check_expense_approval_status st (tasksOf db eid) (findRule db uid)).resp.is_fully_approved
  | _, _ => false

/-- Observer used to state the pending-view claim: whether the task behind a
returned review is actionable now (`_can_manager_approve_now` reads only the
acting row's `is_manager_approval` and `sequence_order`). -/
def review_can_act_now (db : Db) (r : Review) : Bool :=
  match submitterOf db r.expense_id with
  | none => false
  | some uid =>
    can_manager_approve_now true (findRule db uid) (tasksOf db r.expense_id)
      { approver_id := 0, sequence_order := r.my_approval_step,
        is_manager_approval := r.is_manager_approval,
        status := TaskStatus.pending, comments := none }

end Database

/-- The evaluator's status write feeding the snapshot builder. -/
def checkStatusWrite (st : ExpStatus) (tasks : List ApprovalTask)
    (rule : Rule) : ExpStatus :=
  if is_fully_approved_inline tasks rule && !(st == ExpStatus.approved) then
    ExpStatus.approved
  else if tasks.any (fun a => a.status == TaskStatus.rejected)
          && !(st == ExpStatus.rejected) then ExpStatus.rejected
  else st

/-- Property of a returned review row: its expense would not evaluate as
fully approved now, and its underlying task is actionable now. -/
def goodReview (db : Db) (r : Review) : Prop :=
  expense_fully_approved_now db r.expense_id = false ∧
  review_can_act_now db r = true ∧
  r.can_approve_now = true

section ConcreteInstances

/-- Parallel rule, threshold 50, no manager gate. -/
def ruleP50 : Rule :=
  { is_manager_approver := false, manager_id := none, approver_sequence := 0,
    min_approval_percentage := 50, steps := [] }

/-- Parallel rule, threshold 100, no manager gate. -/
def ruleP100 : Rule :=
  { is_manager_approver := false, manager_id := none, approver_sequence := 0,
    min_approval_percentage := 100, steps := [] }

/-- Sequential rule, threshold 100, no manager gate. -/
def ruleSeq100 : Rule :=
  { is_manager_approver := false, manager_id := none, approver_sequence := 1,
    min_approval_percentage := 100,
    steps := [{ approver_id := 1, sequence_order := 1, required := true },
              { approver_id := 2, sequence_order := 2, required := true }] }

/-- Rule with no steps and no manager gate (default threshold 100). -/
def ruleEmpty : Rule :=
  { is_manager_approver := false, manager_id := none, approver_sequence := 1,
    min_approval_percentage := 100, steps := [] }

/-- Approved task of approver 1 at sequence 1. -/
def tA : ApprovalTask :=
  { approver_id := 1, sequence_order := 1, is_manager_approval := false,
    status := TaskStatus.approved, comments := none }

/-- Pending task of approver 1 at sequence 1. -/
def tP1 : ApprovalTask :=
  { approver_id := 1, sequence_order := 1, is_manager_approval := false,
    status := TaskStatus.pending, comments := none }

/-- Pending task of approver 2 at sequence 2. -/
def tP2 : ApprovalTask :=
  { approver_id := 2, sequence_order := 2, is_manager_approval := false,
    status := TaskStatus.pending, comments := none }

/-- Rejected task of approver 2 at sequence 2. -/
def tR2 : ApprovalTask :=
  { approver_id := 2, sequence_order := 2, is_manager_approval := false,
    status := TaskStatus.rejected, comments := none }

/-- Auto-approved task of approver 2 at sequence 2. -/
def tAuto2 : ApprovalTask :=
  { approver_id := 2, sequence_order := 2, is_manager_approval := false,
    status := TaskStatus.auto_approved, comments := none }

/-- Approved task of approver 2 at sequence 2. -/
def tA2 : ApprovalTask :=
  { approver_id := 2, sequence_order := 2, is_manager_approval := false,
    status := TaskStatus.approved, comments := none }

/-- Rejected task of approver 3 at sequence 3. -/
def tR3 : ApprovalTask :=
  { approver_id := 3, sequence_order := 3, is_manager_approval := false,
    status := TaskStatus.rejected, comments := none }

/-- Pending task of approver 4 at sequence 4. -/
def tP4 : ApprovalTask :=
  { approver_id := 4, sequence_order := 4, is_manager_approval := false,
    status := TaskStatus.pending, comments := none }

/-- Fallible database whose expense lookup raises. -/
def failingDb : FallibleDb :=
  { get_expense := Except.error "connection lost",
    get_rule := fun _ => Except.ok none,
    manager_approval_approved := Except.ok false,
    non_manager_tasks := Except.ok [] }

/-- One-expense database: expense 1 submitted by user 5 is in progress, user
5's rule is `ruleSeq100`, and approver 7 holds the only (pending) task. -/
def dbW : Db :=
  { expenses := [{ id := 1, submitted_by := 5, status := ExpStatus.in_progress }],
    rules := [(5, { is_manager_approver := false, manager_id := none,
                    approver_sequence := 1, min_approval_percentage := 100,
                    steps := [{ approver_id := 7, sequence_order := 1,
                                required := true }] })],
    tasks := [{ expense_id := 1, approver_id := 7, sequence_order := 1,
                is_manager_approval := false, status := TaskStatus.pending,
                comments := none }] }

/-- The review row `get_manager_pending_reviews dbW 7` produces. -/
def reviewW : Review :=
  { expense_id := 1, my_approval_step := 1, is_manager_approval := false,
    can_approve_now := true }

/-- The step orders 1..n as Python integers, ascending. -/
def ascendingOrders (n : Nat) : List Int :=
  (List.range n).map (fun i : Nat => (i : Int) + 1)

end ConcreteInstances

/-! Helper lemmas shared by several claims. -/

theorem approved_count_le_total_required (tasks : List ApprovalTask) :
    approved_count_inline tasks ≤ total_required_inline tasks := by
  simp only [approved_count_inline, total_required_inline,
    ← List.countP_eq_length_filter]
  refine List.countP_mono_left ?_
  intro x _ h
  simp only [Bool.or_eq_true]
  exact Or.inr h

theorem total_required_le_length (tasks : List ApprovalTask) :
    total_required_inline tasks ≤ tasks.length := by
  simp only [total_required_inline, ← List.countP_eq_length_filter]
  exact List.countP_le_length _

theorem approved_count_resp_eq_inline (tasks : List ApprovalTask) :
    approved_count_resp tasks = approved_count_inline tasks := rfl

/-- The inline percentage of `check_expense_approval_status` dominates the
snapshot percentage of `_build_approval_status_response`: the numerators
agree and the snapshot denominator (all tasks) contains the inline one
(pending or approved tasks). -/
theorem pct_resp_le_pct_inline (tasks : List ApprovalTask) :
    approval_percentage_resp tasks ≤ approval_percentage_inline tasks := by
  have ha := approved_count_le_total_required tasks
  have hd := total_required_le_length tasks
  unfold approval_percentage_resp approval_percentage_inline
  rw [approved_count_resp_eq_inline]
  by_cases h0 : 0 < total_required_inline tasks
  · have hlen : 0 < tasks.length := lt_of_lt_of_le h0 hd
    rw [if_pos h0, if_pos hlen]
    have h1 : (0:Rat) < (total_required_inline tasks : Rat) := by
      exact_mod_cast h0
    have h2 : ((total_required_inline tasks : Rat)) ≤ (tasks.length : Rat) := by
      exact_mod_cast hd
    gcongr
  · have hz : total_required_inline tasks = 0 := Nat.eq_zero_of_not_pos h0
    have haz : approved_count_inline tasks = 0 := by omega
    rw [if_neg h0, haz]
    by_cases hlen : 0 < tasks.length
    · rw [if_pos hlen]
      simp
    · rw [if_neg hlen]

/-- A true snapshot verdict implies a true inline verdict: the other two
conjuncts (manager approval and sequential requirements) are computed
identically, and the inline percentage is at least the snapshot one. -/
theorem fully_resp_imp_fully_inline (tasks : List ApprovalTask) (rule : Rule)
    (h : is_fully_approved_resp tasks rule = true) :
    is_fully_approved_inline tasks rule = true := by
  simp only [is_fully_approved_resp, Bool.and_eq_true, decide_eq_true_eq] at h
  simp only [is_fully_approved_inline, Bool.and_eq_true, decide_eq_true_eq]
  exact ⟨⟨le_trans h.1.1 (pct_resp_le_pct_inline tasks), h.1.2⟩, h.2⟩

theorem check_some_resp_fully (st : ExpStatus) (tasks : List ApprovalTask)
    (rule : Rule) :
    (check_expense_approval_status st tasks (some rule)).resp.is_fully_approved
      = is_fully_approved_resp tasks rule := rfl

theorem check_none_resp_fully (st : ExpStatus) (tasks : List ApprovalTask) :
    (check_expense_approval_status st tasks none).resp.is_fully_approved
      = ((if st == ExpStatus.pending then ExpStatus.approved else st)
          == ExpStatus.approved) := rfl

theorem check_none_out (st : ExpStatus) (tasks : List ApprovalTask) :
    (check_expense_approval_status st tasks none).status
        = (if st == ExpStatus.pending then ExpStatus.approved else st)
      ∧ (check_expense_approval_status st tasks none).tasks = tasks
      ∧ (check_expense_approval_status st tasks none).sweep = false :=
  ⟨rfl, rfl, rfl⟩

theorem check_some_unfold (st : ExpStatus) (tasks : List ApprovalTask)
    (rule : Rule) :
    check_expense_approval_status st tasks (some rule)
      = build_approval_status_response (checkStatusWrite st tasks rule)
          tasks (some rule) := rfl

theorem build_some_sweep (st : ExpStatus) (tasks : List ApprovalTask)
    (rule : Rule) :
    (build_approval_status_response st tasks (some rule)).sweep
      = (is_fully_approved_resp tasks rule && !(st == ExpStatus.approved)) := rfl

theorem build_some_status (st : ExpStatus) (tasks : List ApprovalTask)
    (rule : Rule) :
    (build_approval_status_response st tasks (some rule)).status
      = (if is_fully_approved_resp tasks rule && !(st == ExpStatus.approved)
         then ExpStatus.approved else st) := rfl

theorem build_some_tasks (st : ExpStatus) (tasks : List ApprovalTask)
    (rule : Rule) :
    (build_approval_status_response st tasks (some rule)).tasks
      = (if is_fully_approved_resp tasks rule && !(st == ExpStatus.approved)
         then tasks.map sweepTask else tasks) := rfl

/-- The sequential-requirements loop fails as soon as the list contains any
rejected task. -/
theorem seqReqLoop_false_of_rejected {l : List ApprovalTask} {t : ApprovalTask}
    (ht : t ∈ l) (hr : t.status = TaskStatus.rejected) :
    seqReqLoop l = false := by
  induction l with
  | nil => cases ht
  | cons a rest ih =>
    rcases List.mem_cons.mp ht with h | h
    · subst h
      simp [seqReqLoop, hr]
    · by_cases ha : (a.status == TaskStatus.rejected) = true
      · simp [seqReqLoop, ha]
      · by_cases hb : (a.status == TaskStatus.pending
            && rest.any (fun b => b.status == TaskStatus.approved)) = true
        · simp [seqReqLoop, ha, hb]
        · simp only [seqReqLoop, ha, hb]
          simp only [Bool.false_eq_true, if_false]
          exact ih h

/-! Claim C1. -/

/-- Claim C1 counterexample: under the parallel rule with threshold 50, an
expense whose tasks are one approved and one rejected, stored as REJECTED, is
flipped to APPROVED by `check_expense_approval_status` (the rejected task is
excluded from the inline denominator, so the percentage is 100 and the
approved branch wins over the rejected branch). -/
theorem c1_rejected_expense_flips_to_approved :
    tR2.status = TaskStatus.rejected ∧
    (check_expense_approval_status ExpStatus.rejected [tA, tR2]
        (some ruleP50)).status = ExpStatus.approved := by
  refine ⟨rfl, ?_⟩
  simp [check_expense_approval_status, build_approval_status_response,
    is_fully_approved_inline, is_fully_approved_resp, approval_percentage_inline,
    approval_percentage_resp, approved_count_inline, approved_count_resp,
    total_required_inline, manager_approved_of, check_sequential_requirements,
    check_approval_progression, tA, tR2, ruleP50,
    List.filter_cons, List.filter_nil, List.find?_cons, List.find?_nil,
    List.any_cons, List.any_nil]
  norm_num

/-- Claim C1, amended: a REJECTED task forces or keeps the expense status
REJECTED only when the inline full-approval verdict fails; in SEQUENTIAL mode
a rejected non-manager task always falsifies that verdict, but in PARALLEL
mode the verdict can hold despite a rejection (the rejected task leaves the
denominator), and then evaluate sets the expense APPROVED even from a stored
REJECTED status — REJECTED is not a terminal state. -/
theorem c1_rejected_forces_rejected_unless_fully_approved :
    (∀ (st : ExpStatus) (tasks : List ApprovalTask) (rule : Rule),
      tasks.any (fun a => a.status == TaskStatus.rejected) = true →
      is_fully_approved_inline tasks rule = false →
      (check_expense_approval_status st tasks (some rule)).status
        = ExpStatus.rejected) ∧
    (∀ (tasks : List ApprovalTask) (rule : Rule),
      is_fully_approved_inline tasks rule = true →
      (check_expense_approval_status ExpStatus.rejected tasks
          (some rule)).status = ExpStatus.approved) ∧
    (∀ (tasks : List ApprovalTask) (rule : Rule) (t : ApprovalTask),
      rule.approver_sequence = 1 → t ∈ tasks → t.is_manager_approval = false →
      t.status = TaskStatus.rejected →
      is_fully_approved_inline tasks rule = false) := by
  refine ⟨?_, ?_, ?_⟩
  · intro st tasks rule hrej hfi
    rw [check_some_unfold, build_some_status]
    have hsw : checkStatusWrite st tasks rule = ExpStatus.rejected := by
      unfold checkStatusWrite
      rw [hfi, hrej]
      by_cases hst : st = ExpStatus.rejected
      · subst hst; simp
      · have hb : (st == ExpStatus.rejected) = false := by
          simp [hst]
        simp [hb]
    have hfb : is_fully_approved_resp tasks rule = false := by
      cases hfb : is_fully_approved_resp tasks rule
      · rfl
      · exact absurd (fully_resp_imp_fully_inline tasks rule hfb) (by simp [hfi])
    rw [hsw, hfb]
    simp
  · intro tasks rule hfi
    rw [check_some_unfold, build_some_status]
    have hsw : checkStatusWrite ExpStatus.rejected tasks rule
        = ExpStatus.approved := by
      unfold checkStatusWrite
      rw [hfi]
      simp
    rw [hsw]
    simp
  · intro tasks rule t hseq hmem hnm hstat
    have hloop : check_sequential_requirements tasks rule = false := by
      unfold check_sequential_requirements
      rw [hseq]
      have h10 : ((1 : Int) == 0) = false := by decide
      rw [h10]
      simp only [Bool.false_eq_true, if_false]
      refine seqReqLoop_false_of_rejected ?_ hstat
      unfold sortBySeq
      rw [List.mem_mergeSort, List.mem_filter]
      exact ⟨hmem, by simp [hnm]⟩
    unfold is_fully_approved_inline
    rw [hloop]
    simp

/-- Claim C1 witness: a sequential chain with a rejected second task ends
REJECTED; the parallel counterexample state ends APPROVED. -/
theorem c1_amended_witness :
    (check_expense_approval_status ExpStatus.in_progress [tP1, tR2]
        (some ruleSeq100)).status = ExpStatus.rejected ∧
    (check_expense_approval_status ExpStatus.rejected [tA, tR2]
        (some ruleP50)).status = ExpStatus.approved := by
  constructor
  · refine c1_rejected_forces_rejected_unless_fully_approved.1 _ _ _
      (by decide) ?_
    exact c1_rejected_forces_rejected_unless_fully_approved.2.2
      [tP1, tR2] ruleSeq100 tR2 rfl (by simp [tP1, tR2]) rfl rfl
  · refine c1_rejected_forces_rejected_unless_fully_approved.2.1 _ _ ?_
    simp [is_fully_approved_inline, approval_percentage_inline,
      approved_count_inline, total_required_inline, manager_approved_of,
      check_sequential_requirements, tA, tR2, ruleP50,
      List.filter_cons, List.filter_nil, List.find?_cons, List.find?_nil]
    norm_num

/-! Claim C2. -/

/-- Claim C2 counterexample: PARALLEL rule with threshold 50 and two
approvers, one of whom has approved. Evaluate reports is_fully_approved and
sets the expense APPROVED, but the remaining pending task stays PENDING — the
auto-approval sweep does not fire, because the inline status write has
already set "approved" before the builder's sweep guard runs. -/
theorem c2_pending_task_left_pending_on_full_approval :
    (check_expense_approval_status ExpStatus.in_progress [tA, tP2]
        (some ruleP50)).resp.is_fully_approved = true ∧
    (check_expense_approval_status ExpStatus.in_progress [tA, tP2]
        (some ruleP50)).status = ExpStatus.approved ∧
    (check_expense_approval_status ExpStatus.in_progress [tA, tP2]
        (some ruleP50)).tasks = [tA, tP2] ∧
    tP2.status = TaskStatus.pending := by
  refine ⟨?_, ?_, ?_, rfl⟩ <;>
    simp [check_expense_approval_status, build_approval_status_response,
      is_fully_approved_inline, is_fully_approved_resp, approval_percentage_inline,
      approval_percentage_resp, approved_count_inline, approved_count_resp,
      total_required_inline, manager_approved_of, check_sequential_requirements,
      check_approval_progression, tA, tP2, ruleP50,
      List.filter_cons, List.filter_nil, List.find?_cons, List.find?_nil,
      List.any_cons, List.any_nil]
  all_goals norm_num

/-- Claim C2, amended: the auto-approval sweep fires iff the snapshot verdict
holds, the stored status was already APPROVED on entry, and some task is
REJECTED (only then does the builder still see a non-approved status); when
it fires it does set every pending task AUTO_APPROVED with the fixed system
comment and the status to APPROVED. In the ordinary flow — snapshot verdict
true, stored status not yet APPROVED — the inline write preempts the sweep
and pending tasks stay PENDING. -/
theorem c2_sweep_characterization :
    ∀ (st : ExpStatus) (tasks : List ApprovalTask) (rule : Rule),
      ((check_expense_approval_status st tasks (some rule)).sweep
        = (is_fully_approved_resp tasks rule && (st == ExpStatus.approved)
            && tasks.any (fun a => a.status == TaskStatus.rejected))) ∧
      ((check_expense_approval_status st tasks (some rule)).sweep = true →
        (check_expense_approval_status st tasks (some rule)).tasks
            = tasks.map sweepTask ∧
        (check_expense_approval_status st tasks (some rule)).status
            = ExpStatus.approved) := by
  intro st tasks rule
  constructor
  · rw [check_some_unfold, build_some_sweep]
    cases hfb : is_fully_approved_resp tasks rule
    · simp
    · have hfi := fully_resp_imp_fully_inline tasks rule hfb
      unfold checkStatusWrite
      rw [hfi]
      by_cases hst : st = ExpStatus.approved
      · subst hst
        cases hany : tasks.any (fun a => a.status == TaskStatus.rejected) <;>
          simp [hany]
      · have hb : (st == ExpStatus.approved) = false := by
          simp [hst]
        simp [hb]
  · intro h
    rw [check_some_unfold] at h ⊢
    rw [build_some_sweep] at h
    rw [build_some_tasks, build_some_status, h]
    exact ⟨rfl, rfl⟩

/-- Claim C2 witness: a state where the sweep does fire (stored status
APPROVED, a rejected task present, snapshot verdict true): the pending task
is set AUTO_APPROVED with the fixed comment and the status ends APPROVED. -/
theorem c2_sweep_witness :
    (check_expense_approval_status ExpStatus.approved [tA, tA2, tR3, tP4]
        (some ruleP50)).sweep = true ∧
    (check_expense_approval_status ExpStatus.approved [tA, tA2, tR3, tP4]
        (some ruleP50)).tasks
      = [tA, tA2, tR3,
         { tP4 with status := TaskStatus.auto_approved,
                    comments := some autoComment }] ∧
    (check_expense_approval_status ExpStatus.approved [tA, tA2, tR3, tP4]
        (some ruleP50)).status = ExpStatus.approved := by
  have hs : (check_expense_approval_status ExpStatus.approved [tA, tA2, tR3, tP4]
      (some ruleP50)).sweep = true := by
    rw [(c2_sweep_characterization ExpStatus.approved [tA, tA2, tR3, tP4] ruleP50).1]
    simp [is_fully_approved_resp, approval_percentage_resp, approved_count_resp,
      manager_approved_of, check_sequential_requirements, tA, tA2, tR3, tP4,
      ruleP50, List.filter_cons, List.filter_nil, List.any_cons, List.any_nil]
    norm_num
  have h2 := (c2_sweep_characterization ExpStatus.approved [tA, tA2, tR3, tP4]
    ruleP50).2 hs
  refine ⟨hs, ?_, h2.2⟩
  rw [h2.1]
  simp [sweepTask, tA, tA2, tR3, tP4]

/-! Claim C3. -/

/-- Claim C3 counterexample: an AUTO_APPROVED task is counted neither in the
numerator nor in the denominator of the inline percentage. On one pending
plus one auto-approved task, the claim's formula gives approved_count 1 and
percentage 50; the code gives approved_count 0 and percentage 0. -/
theorem c3_auto_approved_not_counted :
    approved_count_inline [tAuto2] = 0 ∧
    total_required_inline [tP1, tAuto2] = 1 ∧
    approval_percentage_inline [tP1, tAuto2] = 0 := by
  refine ⟨by decide, by decide, ?_⟩
  simp [approval_percentage_inline, approved_count_inline, total_required_inline,
    tP1, tAuto2, List.filter_cons, List.filter_nil]

/-- Claim C3, amended: the inline numerator counts tasks with status exactly
APPROVED (AUTO_APPROVED excluded), and the denominator counts tasks that are
PENDING or APPROVED (both REJECTED and AUTO_APPROVED excluded); the
percentage is numerator over denominator times 100, and 0 when the
denominator is 0. -/
theorem c3_percentage_formula :
    ∀ tasks : List ApprovalTask,
      approved_count_inline tasks
          = tasks.countP (fun a => a.status == TaskStatus.approved) ∧
      total_required_inline tasks
          = tasks.countP (fun a => a.status == TaskStatus.pending
              || a.status == TaskStatus.approved) ∧
      approval_percentage_inline tasks
          = (if 0 < tasks.countP (fun a => a.status == TaskStatus.pending
                || a.status == TaskStatus.approved) then
               (tasks.countP (fun a => a.status == TaskStatus.approved) : Rat)
                 / (tasks.countP (fun a => a.status == TaskStatus.pending
                     || a.status == TaskStatus.approved) : Rat) * 100
             else 0) := by
  intro tasks
  refine ⟨?_, ?_, ?_⟩
  · rw [approved_count_inline, ← List.countP_eq_length_filter]
  · rw [total_required_inline, ← List.countP_eq_length_filter]
  · rw [approval_percentage_inline, approved_count_inline, total_required_inline,
      ← List.countP_eq_length_filter, ← List.countP_eq_length_filter]

/-! Claim C9. -/

/-- Claim C9: `_can_manager_approve_now` fails open — whenever the body
raises on an internal lookup, the catch-all handler returns true. -/
theorem c9_can_approve_fails_open (db : FallibleDb) (acting : ApprovalTask)
    (msg : String) (h : can_approve_body db acting = Except.error msg) :
    can_approve_now_guarded db acting = true := by
  unfold can_approve_now_guarded
  rw [h]

/-- Claim C9 witness: with a database whose expense lookup raises, the body
errors and the guarded function returns true. -/
theorem c9_fail_open_witness :
    can_approve_body failingDb tP1 = Except.error "connection lost" ∧
    can_approve_now_guarded failingDb tP1 = true :=
  ⟨rfl, c9_can_approve_fails_open failingDb tP1 "connection lost" rfl⟩

/-! Claim C10. -/

/-- Claim C10 counterexample: on one approved plus one rejected task under a
parallel rule with threshold 100, the inline computation yields percentage
100 and verdict true while the snapshot computation yields percentage 50 and
verdict false — the two computations are not equal. -/
theorem c10_two_computations_disagree :
    approval_percentage_inline [tA, tR2] = 100 ∧
    approval_percentage_resp [tA, tR2] = 50 ∧
    is_fully_approved_inline [tA, tR2] ruleP100 = true ∧
    is_fully_approved_resp [tA, tR2] ruleP100 = false := by
  refine ⟨?_, ?_, ?_, ?_⟩ <;>
    simp [approval_percentage_inline, approval_percentage_resp,
      approved_count_inline, approved_count_resp, total_required_inline,
      is_fully_approved_inline, is_fully_approved_resp, manager_approved_of,
      check_sequential_requirements, tA, tR2, ruleP100,
      List.filter_cons, List.filter_nil, List.find?_cons, List.find?_nil]
  all_goals norm_num

/-- Claim C10, amended: the two computations agree only one way — the
snapshot percentage never exceeds the inline percentage (the snapshot
denominator additionally counts REJECTED and AUTO_APPROVED tasks), so a true
snapshot verdict implies a true inline verdict; the converse fails, and the
persisted status decision can approve while the returned snapshot reports
is_fully_approved false. -/
theorem c10_snapshot_refines_inline :
    ∀ (tasks : List ApprovalTask) (rule : Rule),
      approval_percentage_resp tasks ≤ approval_percentage_inline tasks ∧
      (is_fully_approved_resp tasks rule = true →
        is_fully_approved_inline tasks rule = true) :=
  fun tasks rule =>
    ⟨pct_resp_le_pct_inline tasks, fully_resp_imp_fully_inline tasks rule⟩

/-- Claim C10 witness: on a single approved task under the parallel
50-percent rule both verdicts are true, the implication applying. -/
theorem c10_refinement_witness :
    is_fully_approved_resp [tA] ruleP50 = true ∧
    is_fully_approved_inline [tA] ruleP50 = true := by
  have h : is_fully_approved_resp [tA] ruleP50 = true := by
    simp [is_fully_approved_resp, approval_percentage_resp, approved_count_resp,
      manager_approved_of, check_sequential_requirements, tA, ruleP50,
      List.filter_cons, List.filter_nil]
    norm_num
  exact ⟨h, (c10_snapshot_refines_inline [tA] ruleP50).2 h⟩

/-! Claim C4. -/

/-- Claim C4 counterexample: under the sequential rule with both tasks still
pending, approver 2 is not actionable (`_can_manager_approve_now` is false),
yet `reject_expense` succeeds for approver 2 — no Validation error — and
records the rejection: the mutation-time eligibility re-check exists only on
the approve path. -/
theorem c4_reject_skips_eligibility_recheck :
    can_manager_approve_now true (some ruleSeq100) [tP1, tP2] tP2 = false ∧
    (∃ out, reject_expense ExpStatus.in_progress [tP1, tP2] (some ruleSeq100)
        2 "not valid" = Except.ok out ∧ out.status = ExpStatus.rejected) := by
  refine ⟨by decide, ⟨_, rfl, ?_⟩⟩
  simp [reject_expense, findPendingFor, setFirstPendingWith,
    check_expense_approval_status, build_approval_status_response,
    is_fully_approved_inline, is_fully_approved_resp, approval_percentage_inline,
    approval_percentage_resp, approved_count_inline, approved_count_resp,
    total_required_inline, manager_approved_of, check_sequential_requirements,
    check_approval_progression, sortBySeq, progressionLoopSeq, seqReqLoop,
    tP1, tP2, ruleSeq100, List.filter_cons, List.filter_nil,
    List.find?_cons, List.find?_nil, List.any_cons, List.any_nil,
    List.mergeSort]

/-- Claim C4, amended: `approve_expense` re-checks eligibility at mutation
time and fails with the Validation error, leaving every row unmutated (the
error is raised before any write); `reject_expense` performs no eligibility
re-check — whenever a pending task exists for the approver the rejection goes
through, regardless of the rule's ordering or manager gate. -/
theorem c4_only_approve_rechecks_eligibility :
    (∀ (st : ExpStatus) (tasks : List ApprovalTask) (rule : Option Rule)
        (aid : Nat) (c : Option String) (t : ApprovalTask),
      findPendingFor tasks aid = some t →
      can_manager_approve_now true rule tasks t = false →
      approve_expense st tasks rule aid c
        = Except.error (SvcError.validation
            "Cannot approve at this time. Previous approvals may be required first.")) ∧
    (∀ (st : ExpStatus) (tasks : List ApprovalTask) (rule : Option Rule)
        (aid : Nat) (c : String) (t : ApprovalTask),
      findPendingFor tasks aid = some t →
      ∃ out, reject_expense st tasks rule aid c = Except.ok out) := by
  constructor
  · intro st tasks rule aid c t hfind hcan
    simp only [approve_expense, hfind, hcan]
    simp
  · intro st tasks rule aid c t hfind
    refine ⟨check_expense_approval_status ExpStatus.rejected
      (setFirstPendingWith tasks aid (fun t =>
        { t with status := TaskStatus.rejected, comments := some c })) rule, ?_⟩
    simp only [reject_expense, hfind]

/-- Claim C4 witness: the amended theorem applied to the two-step sequential
state with both tasks pending and approver 2 acting. -/
theorem c4_recheck_witness :
    approve_expense ExpStatus.in_progress [tP1, tP2] (some ruleSeq100) 2 none
      = Except.error (SvcError.validation
          "Cannot approve at this time. Previous approvals may be required first.") ∧
    (∃ out, reject_expense ExpStatus.in_progress [tP1, tP2] (some ruleSeq100)
        2 "bad" = Except.ok out) := by
  constructor
  · exact c4_only_approve_rechecks_eligibility.1 ExpStatus.in_progress
      [tP1, tP2] (some ruleSeq100) 2 none tP2 rfl (by decide)
  · exact c4_only_approve_rechecks_eligibility.2 ExpStatus.in_progress
      [tP1, tP2] (some ruleSeq100) 2 "bad" tP2 rfl

/-! Claim C5. -/

/-- Claim C5 counterexample: initiating with a rule that has no steps and no
manager gate (default threshold 100) sets the expense IN_PROGRESS, not
APPROVED, with an empty task set — the expense is stranded, contradicting
the claimed immediate auto-approval. -/
theorem c5_empty_rule_leaves_in_progress :
    ruleEmpty.steps = [] ∧ ruleEmpty.is_manager_approver = false ∧
    (initiate_expense_approval ExpStatus.pending [] (some ruleEmpty)).status
      = ExpStatus.in_progress ∧
    ExpStatus.in_progress ≠ ExpStatus.approved := by
  refine ⟨rfl, rfl, ?_, by decide⟩
  simp [initiate_expense_approval, build_approval_status_response,
    is_fully_approved_resp, approval_percentage_resp, approved_count_resp,
    manager_approved_of, check_sequential_requirements, check_approval_progression,
    managerIdTruthy, ruleEmpty, sortBySeq, seqReqLoop, progressionLoopSeq,
    List.mergeSort]

/-- Claim C5, amended: with no rule at all, initiation sets the expense
APPROVED, creates no tasks and reports no pending tasks (it does not delete
pre-existing rows on this branch); with a rule that has no steps and no
manager gate and a positive threshold, initiation deletes prior rows,
creates none, and sets the expense IN_PROGRESS — not APPROVED. -/
theorem c5_initiation_outcomes :
    (∀ (st : ExpStatus) (prior : List ApprovalTask),
      (initiate_expense_approval st prior none).status = ExpStatus.approved ∧
      (initiate_expense_approval st prior none).tasks = prior ∧
      (initiate_expense_approval st prior none).resp.pending_tasks = []) ∧
    (∀ (st : ExpStatus) (prior : List ApprovalTask) (rule : Rule),
      rule.steps = [] → rule.is_manager_approver = false →
      0 < rule.min_approval_percentage →
      (initiate_expense_approval st prior (some rule)).status
          = ExpStatus.in_progress ∧
      (initiate_expense_approval st prior (some rule)).tasks = []) := by
  constructor
  · intro st prior
    exact ⟨rfl, rfl, rfl⟩
  · intro st prior rule hsteps hmgr hmin
    have hfb : is_fully_approved_resp [] rule = false := by
      have h0 : approval_percentage_resp ([] : List ApprovalTask) = 0 := by
        unfold approval_percentage_resp
        simp
      unfold is_fully_approved_resp
      rw [h0]
      have hdec : decide (rule.min_approval_percentage ≤ (0 : Rat)) = false :=
        decide_eq_false (not_le.mpr hmin)
      rw [hdec]
      simp
    simp only [initiate_expense_approval]
    rw [hmgr, hsteps]
    simp only [Bool.false_and, Bool.false_eq_true, if_false, List.map_nil,
      List.nil_append]
    rw [build_some_status, build_some_tasks, hfb]
    simp

/-- Claim C5 witness: the amended theorem applied with no rule and with the
empty rule. -/
theorem c5_initiation_witness :
    (initiate_expense_approval ExpStatus.pending [tA] none).status
        = ExpStatus.approved ∧
    (initiate_expense_approval ExpStatus.pending [] (some ruleEmpty)).status
        = ExpStatus.in_progress :=
  ⟨(c5_initiation_outcomes.1 ExpStatus.pending [tA]).1,
   (c5_initiation_outcomes.2 ExpStatus.pending [] ruleEmpty rfl rfl
      (by norm_num [ruleEmpty])).1⟩


theorem can_seq_nonmanager (rule : Rule) (tasks : List ApprovalTask)
    (acting : ApprovalTask) (hseq : rule.approver_sequence = 1)
    (hnm : acting.is_manager_approval = false) :
    can_manager_approve_now true (some rule) tasks acting
      = ((!(rule.is_manager_approver
            && !(tasks.any (fun a =>
                  a.is_manager_approval && a.status == TaskStatus.approved))))
          && !((tasks.filter (fun a => !a.is_manager_approval)).any (fun prev =>
              prev.sequence_order < acting.sequence_order
                && !(prev.status == TaskStatus.approved)))) := by
  by_cases hg : (rule.is_manager_approver && !(tasks.any (fun a =>
      a.is_manager_approval && a.status == TaskStatus.approved))) = true
  · simp [can_manager_approve_now, hnm, hseq, hg]
  · simp only [Bool.not_eq_true] at hg
    simp [can_manager_approve_now, hnm, hseq, hg]

theorem c6_sequential_order_gating :
    (∀ (rule : Rule) (tasks : List ApprovalTask) (acting : ApprovalTask),
      rule.approver_sequence = 1 → acting.is_manager_approval = false →
      can_manager_approve_now true (some rule) tasks acting = true →
      ∀ a ∈ tasks, a.is_manager_approval = false →
        a.sequence_order < acting.sequence_order →
        a.status = TaskStatus.approved ∨ a.status = TaskStatus.auto_approved) ∧
    (∀ (rule : Rule) (tasks : List ApprovalTask) (acting a : ApprovalTask),
      rule.approver_sequence = 1 → acting.is_manager_approval = false →
      a ∈ tasks → a.is_manager_approval = false →
      a.sequence_order < acting.sequence_order →
      (a.status = TaskStatus.pending ∨ a.status = TaskStatus.rejected) →
      can_manager_approve_now true (some rule) tasks acting = false) ∧
    (∀ (st : ExpStatus) (tasks : List ApprovalTask) (rule : Rule) (aid : Nat)
        (c : Option String) (t : ApprovalTask),
      findPendingFor tasks aid = some t →
      can_manager_approve_now true (some rule) tasks t = false →
      approve_expense st tasks (some rule) aid c
        = Except.error (SvcError.validation
            "Cannot approve at this time. Previous approvals may be required first.")) := by
  refine ⟨?_, ?_, ?_⟩
  · intro rule tasks acting hseq hnm h a ha hanm hlt
    rw [can_seq_nonmanager rule tasks acting hseq hnm] at h
    have hseqany : ((tasks.filter (fun x => !x.is_manager_approval)).any (fun prev =>
        prev.sequence_order < acting.sequence_order
          && !(prev.status == TaskStatus.approved))) = false := by
      have h2 := ((Bool.and_eq_true _ _) ▸ h).2
      simpa using h2
    have hmem : a ∈ tasks.filter (fun x => !x.is_manager_approval) :=
      List.mem_filter.mpr ⟨ha, by simp [hanm]⟩
    have hpa := (List.any_eq_false.mp hseqany) a hmem
    have happ : (a.status == TaskStatus.approved) = true := by
      by_contra hne
      apply hpa
      simp only [Bool.not_eq_true] at hne
      simp [hlt, hne]
    exact Or.inl (by simpa using happ)
  · intro rule tasks acting a hseq hnm ha hanm hlt hstat
    rw [can_seq_nonmanager rule tasks acting hseq hnm]
    have hany : ((tasks.filter (fun x => !x.is_manager_approval)).any (fun prev =>
        prev.sequence_order < acting.sequence_order
          && !(prev.status == TaskStatus.approved))) = true := by
      rw [List.any_eq_true]
      refine ⟨a, List.mem_filter.mpr ⟨ha, by simp [hanm]⟩, ?_⟩
      have hne : (a.status == TaskStatus.approved) = false := by
        rcases hstat with h | h <;> simp [h]
      simp [hlt, hne]
    rw [hany]
    simp
  · intro st tasks rule aid c t hfind hcan
    simp only [approve_expense, hfind, hcan]
    simp

theorem c6_gating_witness :
    can_manager_approve_now true (some ruleSeq100) [tP1, tP2] tP2 = false ∧
    approve_expense ExpStatus.in_progress [tP1, tP2] (some ruleSeq100) 2 none
      = Except.error (SvcError.validation
          "Cannot approve at this time. Previous approvals may be required first.") ∧
    (tA.status = TaskStatus.approved ∨ tA.status = TaskStatus.auto_approved) := by
  have hfalse : can_manager_approve_now true (some ruleSeq100) [tP1, tP2] tP2 = false :=
    c6_sequential_order_gating.2.1 ruleSeq100 [tP1, tP2] tP2 tP1 rfl rfl
      (by simp) rfl (by decide) (Or.inl rfl)
  exact ⟨hfalse,
    c6_sequential_order_gating.2.2 ExpStatus.in_progress [tP1, tP2] ruleSeq100
      2 none tP2 rfl hfalse,
    c6_sequential_order_gating.1 ruleSeq100 [tA, tP2] tP2 rfl rfl (by decide)
      tA (by simp) rfl (by decide)⟩


/-! Claim C7. -/

theorem dedup_length_eq_iff (l : List Int) :
    l.dedup.length = l.length ↔ l.Nodup := by
  constructor
  · intro h
    exact List.dedup_eq_self.mp (List.Sublist.eq_of_length (List.dedup_sublist l) h)
  · intro h
    rw [List.dedup_eq_self.mpr h]

theorem int_min?_eq_some_iff {a : Int} {xs : List Int} :
    xs.min? = some a ↔ a ∈ xs ∧ ∀ b ∈ xs, a ≤ b :=
  @List.min?_eq_some_iff Int a _ _ ⟨fun h h' => le_antisymm h h'⟩
    (fun x => le_refl x) (fun x y => min_choice x y) (fun x y z => le_min_iff) xs

theorem int_max?_eq_some_iff {a : Int} {xs : List Int} :
    xs.max? = some a ↔ a ∈ xs ∧ ∀ b ∈ xs, b ≤ a :=
  @List.max?_eq_some_iff Int a _ _ ⟨fun h h' => le_antisymm h h'⟩
    (fun x => le_refl x) (fun x y => max_choice x y) (fun x y z => max_le_iff) xs

theorem mem_ascendingOrders {n : Nat} {x : Int} :
    x ∈ ascendingOrders n ↔ 1 ≤ x ∧ x ≤ (n : Int) := by
  unfold ascendingOrders
  rw [List.mem_map]
  constructor
  · rintro ⟨i, hi, rfl⟩
    rw [List.mem_range] at hi
    omega
  · rintro ⟨h1, h2⟩
    refine ⟨(x - 1).toNat, ?_, ?_⟩
    · rw [List.mem_range]
      omega
    · omega

theorem ascendingOrders_nodup (n : Nat) : (ascendingOrders n).Nodup := by
  unfold ascendingOrders
  apply List.Nodup.map
  · intro a b hab
    simpa using hab
  · exact List.nodup_range n

theorem ascendingOrders_length (n : Nat) : (ascendingOrders n).length = n := by
  unfold ascendingOrders
  rw [List.length_map, List.length_range]

theorem validate_sequence_orders_unfold (orders : List Int) (mn mx : Int)
    (hmn : orders.min? = some mn) (hmx : orders.max? = some mx) :
    validate_sequence_orders orders =
      (if orders.dedup.length != orders.length then
        Except.error (SvcError.validation "Duplicate sequence orders not allowed")
      else if mn != 1 || mx != (orders.length : Int) then
        Except.error (SvcError.validation
          "Sequence orders must start from 1 and be consecutive")
      else Except.ok ()) := by
  unfold validate_sequence_orders
  rw [hmn, hmx]

/-- Claim C7 counterexample: an empty step list has sequence orders that are
vacuously a permutation of 1..0, yet both create and update reject it — and
not with a ValidationError: Python raises ValueError from `min([])`, which
the handler wraps into a DatabaseError. -/
theorem c7_empty_orders_rejected :
    ascendingOrders 0 = ([] : List Int) ∧
    validate_sequence_orders []
      = Except.error (SvcError.database "min() arg is an empty sequence") :=
  ⟨rfl, rfl⟩

/-- Claim C7, amended: for a non-empty step list, create and update accept
the sequence orders iff they are a permutation of 1..N (N the number of
steps), and every rejection of a non-empty list is a ValidationError raised
before persistence; the empty list alone is rejected with a DatabaseError
instead, despite being vacuously a permutation of the empty range. -/
theorem c7_sequence_orders_validation :
    ∀ orders : List Int, orders ≠ [] →
      (validate_sequence_orders orders = Except.ok ()
          ↔ orders.Perm (ascendingOrders orders.length)) ∧
      (validate_sequence_orders orders ≠ Except.ok () →
        ∃ m, validate_sequence_orders orders
          = Except.error (SvcError.validation m)) := by
  intro orders hne
  obtain ⟨mn, hmn⟩ : ∃ mn, orders.min? = some mn := by
    cases hm : orders.min? with
    | none => exact absurd (List.min?_eq_none_iff.mp hm) hne
    | some mn => exact ⟨mn, rfl⟩
  obtain ⟨mx, hmx⟩ : ∃ mx, orders.max? = some mx := by
    cases hm : orders.max? with
    | none => exact absurd (List.max?_eq_none_iff.mp hm) hne
    | some mx => exact ⟨mx, rfl⟩
  have hval := validate_sequence_orders_unfold orders mn mx hmn hmx
  constructor
  · constructor
    · intro hok
      rw [hval] at hok
      by_cases hdup : (orders.dedup.length != orders.length) = true
      · rw [if_pos hdup] at hok
        exact absurd hok (by simp)
      · rw [if_neg hdup] at hok
        by_cases hbad : (mn != 1 || mx != (orders.length : Int)) = true
        · rw [if_pos hbad] at hok
          exact absurd hok (by simp)
        · have hpair := Bool.or_eq_false_iff.mp (Bool.not_eq_true _ ▸ hbad)
          have hmn1 : mn = 1 := by
            have := hpair.1
            simpa using this
          have hmxN : mx = (orders.length : Int) := by
            have := hpair.2
            simpa using this
          have hnodup : orders.Nodup := by
            refine (dedup_length_eq_iff orders).mp ?_
            simpa using hdup
          have hlow := (int_min?_eq_some_iff.mp hmn).2
          have hhigh := (int_max?_eq_some_iff.mp hmx).2
          have hsub : orders ⊆ ascendingOrders orders.length := by
            intro x hx
            refine mem_ascendingOrders.mpr ⟨?_, ?_⟩
            · rw [← hmn1]
              exact hlow x hx
            · rw [← hmxN]
              exact hhigh x hx
          have hsp := List.subperm_of_subset hnodup hsub
          refine hsp.perm_of_length_le ?_
          rw [ascendingOrders_length]
    · intro hperm
      have hnodup : orders.Nodup :=
        hperm.nodup_iff.mpr (ascendingOrders_nodup orders.length)
      have hlen1 : 1 ≤ orders.length := by
        cases horders : orders with
        | nil => exact absurd horders hne
        | cons a t => simp [horders]
      have hmn1 : orders.min? = some 1 := by
        refine int_min?_eq_some_iff.mpr ⟨?_, ?_⟩
        · rw [hperm.mem_iff]
          refine mem_ascendingOrders.mpr ⟨le_refl 1, ?_⟩
          omega
        · intro b hb
          have := mem_ascendingOrders.mp (hperm.mem_iff.mp hb)
          omega
      have hmxN : orders.max? = some ((orders.length : Int)) := by
        refine int_max?_eq_some_iff.mpr ⟨?_, ?_⟩
        · rw [hperm.mem_iff]
          refine mem_ascendingOrders.mpr ⟨?_, le_refl _⟩
          omega
        · intro b hb
          have := mem_ascendingOrders.mp (hperm.mem_iff.mp hb)
          omega
      have hmneq : mn = 1 := by
        have := hmn.symm.trans hmn1
        exact Option.some_injective _ this
      have hmxeq : mx = (orders.length : Int) := by
        have := hmx.symm.trans hmxN
        exact Option.some_injective _ this
      rw [hval]
      have hdup : (orders.dedup.length != orders.length) = false := by
        have := (dedup_length_eq_iff orders).mpr hnodup
        simp [this]
      rw [hdup]
      subst hmneq hmxeq
      simp
  · intro hnok
    rw [hval] at hnok ⊢
    by_cases hdup : (orders.dedup.length != orders.length) = true
    · rw [if_pos hdup]
      exact ⟨_, rfl⟩
    · rw [if_neg hdup] at hnok ⊢
      by_cases hbad : (mn != 1 || mx != (orders.length : Int)) = true
      · rw [if_pos hbad]
        exact ⟨_, rfl⟩
      · rw [if_neg hbad] at hnok
        exact absurd rfl hnok

/-- Claim C7 witness: the amended theorem applied to the non-empty list
[2, 1], a permutation of 1..2, which validates fine. -/
theorem c7_validation_witness :
    validate_sequence_orders [2, 1] = Except.ok () :=
  ((c7_sequence_orders_validation [2, 1] (by simp)).1).mpr (by decide)

/-! Claim C8: frame and congruence lemmas for the database layer. -/

theorem find?_expenses_map (l : List ExpenseRec) (eid : Nat)
    (f : ExpenseRec → ExpenseRec) (hid : ∀ e, (f e).id = e.id) :
    (l.map f).find? (fun e => e.id == eid)
      = (l.find? (fun e => e.id == eid)).map f := by
  rw [List.find?_map]
  have hp : ((fun e : ExpenseRec => e.id == eid) ∘ f)
      = (fun e : ExpenseRec => e.id == eid) := by
    funext e
    simp [Function.comp, hid e]
  rw [hp]

theorem submitterOf_setExpenseStatus (db : Db) (eid x : Nat) (s : ExpStatus) :
    submitterOf (setExpenseStatus db eid s) x = submitterOf db x := by
  unfold submitterOf findExpense setExpenseStatus
  rw [find?_expenses_map]
  · rw [Option.map_map]
    cases db.expenses.find? (fun e => e.id == x) with
    | none => rfl
    | some e =>
      simp only [Option.map_some']
      by_cases h : (e.id == eid) = true <;> simp [Function.comp, h]
  · intro e
    by_cases h : (e.id == eid) = true <;> simp [h]

theorem statusOf_setExpenseStatus_ne (db : Db) (eid x : Nat) (s : ExpStatus)
    (hx : x ≠ eid) :
    statusOf (setExpenseStatus db eid s) x = statusOf db x := by
  unfold statusOf findExpense setExpenseStatus
  rw [find?_expenses_map]
  · rw [Option.map_map]
    cases hfind : db.expenses.find? (fun e => e.id == x) with
    | none => rfl
    | some e =>
      have hpe : e.id = x := by simpa using List.find?_some hfind
      have hne : (e.id == eid) = false := by
        simp [hpe, hx]
      simp [Function.comp, hne, hpe, hx]
  · intro e
    by_cases h : (e.id == eid) = true <;> simp [h]

theorem statusOf_setExpenseStatus_self (db : Db) (eid : Nat) (s : ExpStatus)
    (e : ExpenseRec) (he : findExpense db eid = some e) :
    statusOf (setExpenseStatus db eid s) eid = some s := by
  unfold findExpense at he
  unfold statusOf findExpense setExpenseStatus
  rw [find?_expenses_map]
  · rw [Option.map_map, he]
    have hpe : e.id = eid := by simpa using List.find?_some he
    simp [Function.comp, hpe]
  · intro a
    by_cases h : (a.id == eid) = true <;> simp [h]

theorem sweepRow_expense_id (r : TaskRow) :
    (sweepRow r).expense_id = r.expense_id := by
  unfold sweepRow
  by_cases h : (r.status == TaskStatus.pending) = true <;> simp [h]

theorem toTask_sweepRow (r : TaskRow) :
    (sweepRow r).toTask = sweepTask r.toTask := by
  unfold sweepRow sweepTask TaskRow.toTask
  by_cases h : (r.status == TaskStatus.pending) = true <;> simp [h]

theorem tasksOf_sweepExpenseTasks_ne (db : Db) (eid x : Nat) (hx : x ≠ eid) :
    tasksOf (sweepExpenseTasks db eid) x = tasksOf db x := by
  unfold tasksOf sweepExpenseTasks
  rw [List.filter_map, List.map_map]
  have hfil : db.tasks.filter
      ((fun r => r.expense_id == x) ∘ fun r =>
        if r.expense_id == eid then sweepRow r else r)
      = db.tasks.filter (fun r => r.expense_id == x) := by
    apply List.filter_congr
    intro r _
    by_cases h : (r.expense_id == eid) = true <;>
      simp [Function.comp, h, sweepRow_expense_id]
  rw [hfil]
  apply List.map_congr_left
  intro r hr
  have hrx : r.expense_id = x := by
    simpa using (List.mem_filter.mp hr).2
  have hne : (r.expense_id == eid) = false := by
    simp [hrx, hx]
  simp [Function.comp, hne]

theorem tasksOf_sweepExpenseTasks_self (db : Db) (eid : Nat) :
    tasksOf (sweepExpenseTasks db eid) eid = (tasksOf db eid).map sweepTask := by
  unfold tasksOf sweepExpenseTasks
  rw [List.filter_map, List.map_map, List.map_map]
  have hfil : db.tasks.filter
      ((fun r => r.expense_id == eid) ∘ fun r =>
        if r.expense_id == eid then sweepRow r else r)
      = db.tasks.filter (fun r => r.expense_id == eid) := by
    apply List.filter_congr
    intro r _
    by_cases h : (r.expense_id == eid) = true <;>
      simp [Function.comp, h, sweepRow_expense_id]
  rw [hfil]
  apply List.map_congr_left
  intro r hr
  have hre : (r.expense_id == eid) = true := (List.mem_filter.mp hr).2
  simp [Function.comp, hre, toTask_sweepRow]

theorem findRule_congr (db1 db2 : Db) (uid : Nat) (h : db1.rules = db2.rules) :
    findRule db1 uid = findRule db2 uid := by
  unfold findRule
  rw [h]

/-! Claim C8: behaviour of `check_status_db` and the two view observers. -/

theorem check_status_db_none (db : Db) (eid : Nat)
    (he : findExpense db eid = none) : check_status_db db eid = (db, none) := by
  unfold check_status_db
  rw [he]

theorem check_status_db_snd (db : Db) (eid : Nat) (e : ExpenseRec)
    (he : findExpense db eid = some e) :
    (check_status_db db eid).2
      = some (check_expense_approval_status e.status (tasksOf db eid)
          (findRule db e.submitted_by)).resp := by
  unfold check_status_db
  rw [he]

theorem check_status_db_rules (db : Db) (eid : Nat) :
    (check_status_db db eid).1.rules = db.rules := by
  unfold check_status_db
  cases he : findExpense db eid with
  | none => rfl
  | some e =>
    by_cases hs : (check_expense_approval_status e.status (tasksOf db eid)
        (findRule db e.submitted_by)).sweep = true <;>
      simp [hs, sweepExpenseTasks, setExpenseStatus]

theorem submitterOf_sweepExpenseTasks (db : Db) (eid x : Nat) :
    submitterOf (sweepExpenseTasks db eid) x = submitterOf db x := rfl

theorem statusOf_sweepExpenseTasks (db : Db) (eid x : Nat) :
    statusOf (sweepExpenseTasks db eid) x = statusOf db x := rfl

theorem tasksOf_setExpenseStatus (db : Db) (eid : Nat) (s : ExpStatus) (x : Nat) :
    tasksOf (setExpenseStatus db eid s) x = tasksOf db x := rfl

theorem check_status_db_submitter (db : Db) (eid x : Nat) :
    submitterOf (check_status_db db eid).1 x = submitterOf db x := by
  unfold check_status_db
  cases he : findExpense db eid with
  | none => rfl
  | some e =>
    dsimp only
    by_cases hs : (check_expense_approval_status e.status (tasksOf db eid)
        (findRule db e.submitted_by)).sweep = true
    · rw [if_pos hs, submitterOf_sweepExpenseTasks, submitterOf_setExpenseStatus]
    · rw [if_neg hs, submitterOf_setExpenseStatus]

theorem check_status_db_statusOf_ne (db : Db) (eid x : Nat) (hx : x ≠ eid) :
    statusOf (check_status_db db eid).1 x = statusOf db x := by
  unfold check_status_db
  cases he : findExpense db eid with
  | none => rfl
  | some e =>
    dsimp only
    by_cases hs : (check_expense_approval_status e.status (tasksOf db eid)
        (findRule db e.submitted_by)).sweep = true
    · rw [if_pos hs, statusOf_sweepExpenseTasks, statusOf_setExpenseStatus_ne _ _ _ _ hx]
    · rw [if_neg hs, statusOf_setExpenseStatus_ne _ _ _ _ hx]

theorem check_status_db_tasksOf_ne (db : Db) (eid x : Nat) (hx : x ≠ eid) :
    tasksOf (check_status_db db eid).1 x = tasksOf db x := by
  unfold check_status_db
  cases he : findExpense db eid with
  | none => rfl
  | some e =>
    dsimp only
    by_cases hs : (check_expense_approval_status e.status (tasksOf db eid)
        (findRule db e.submitted_by)).sweep = true
    · rw [if_pos hs, tasksOf_sweepExpenseTasks_ne _ _ _ hx, tasksOf_setExpenseStatus]
    · rw [if_neg hs, tasksOf_setExpenseStatus]

theorem check_status_db_statusOf_self (db : Db) (eid : Nat) (e : ExpenseRec)
    (he : findExpense db eid = some e) :
    statusOf (check_status_db db eid).1 eid
      = some (check_expense_approval_status e.status (tasksOf db eid)
          (findRule db e.submitted_by)).status := by
  unfold check_status_db
  rw [he]
  dsimp only
  by_cases hs : (check_expense_approval_status e.status (tasksOf db eid)
      (findRule db e.submitted_by)).sweep = true
  · rw [if_pos hs, statusOf_sweepExpenseTasks,
      statusOf_setExpenseStatus_self _ _ _ _ he]
  · rw [if_neg hs, statusOf_setExpenseStatus_self _ _ _ _ he]

theorem check_status_db_tasksOf_self_nosweep (db : Db) (eid : Nat)
    (e : ExpenseRec) (he : findExpense db eid = some e)
    (hs : (check_expense_approval_status e.status (tasksOf db eid)
        (findRule db e.submitted_by)).sweep = false) :
    tasksOf (check_status_db db eid).1 eid = tasksOf db eid := by
  unfold check_status_db
  rw [he]
  dsimp only
  rw [if_neg (by rw [hs]; exact Bool.false_ne_true), tasksOf_setExpenseStatus]

theorem fully_now_eq (db : Db) (eid : Nat) (st : ExpStatus) (uid : Nat)
    (hst : statusOf db eid = some st) (hsub : submitterOf db eid = some uid) :
    expense_fully_approved_now db eid
      = (check_expense_approval_status st (tasksOf db eid)
          (findRule db uid)).resp.is_fully_approved := by
  unfold expense_fully_approved_now
  rw [hst, hsub]

theorem fully_now_congr (db1 db2 : Db) (x : Nat)
    (h1 : statusOf db1 x = statusOf db2 x)
    (h2 : submitterOf db1 x = submitterOf db2 x)
    (h3 : tasksOf db1 x = tasksOf db2 x) (h4 : db1.rules = db2.rules) :
    expense_fully_approved_now db1 x = expense_fully_approved_now db2 x := by
  have hrule : ∀ uid, findRule db1 uid = findRule db2 uid :=
    fun uid => findRule_congr db1 db2 uid h4
  unfold expense_fully_approved_now
  rw [h1, h2, h3]
  cases statusOf db2 x with
  | none => rfl
  | some st =>
    cases submitterOf db2 x with
    | none => rfl
    | some uid =>
      dsimp only
      rw [hrule uid]

theorem review_can_act_congr (db1 db2 : Db) (r : Review)
    (h2 : submitterOf db1 r.expense_id = submitterOf db2 r.expense_id)
    (h3 : tasksOf db1 r.expense_id = tasksOf db2 r.expense_id)
    (h4 : db1.rules = db2.rules) :
    review_can_act_now db1 r = review_can_act_now db2 r := by
  have hrule : ∀ uid, findRule db1 uid = findRule db2 uid :=
    fun uid => findRule_congr db1 db2 uid h4
  unfold review_can_act_now
  rw [h2, h3]
  cases submitterOf db2 r.expense_id with
  | none => rfl
  | some uid =>
    dsimp only
    rw [hrule uid]

theorem can_ignores_acting_fields (ef : Bool) (rule : Option Rule)
    (tasks : List ApprovalTask) (t1 t2 : ApprovalTask)
    (h1 : t1.is_manager_approval = t2.is_manager_approval)
    (h2 : t1.sequence_order = t2.sequence_order) :
    can_manager_approve_now ef rule tasks t1
      = can_manager_approve_now ef rule tasks t2 := by
  unfold can_manager_approve_now
  rw [h1, h2]

/-- Evaluating an expense whose snapshot verdict is false leaves its task
rows unchanged, keeps the verdict false, and does not affect eligibility of
its reviews (the status write may still change the stored status, which
neither observer reads in the rule case, and which is unchanged in the
no-rule case). -/
theorem check_preserves_same (db : Db) (eid : Nat) (e : ExpenseRec)
    (he : findExpense db eid = some e)
    (hff : expense_fully_approved_now db eid = false) :
    tasksOf (check_status_db db eid).1 eid = tasksOf db eid ∧
    expense_fully_approved_now (check_status_db db eid).1 eid = false ∧
    ∀ rev : Review, rev.expense_id = eid →
      review_can_act_now (check_status_db db eid).1 rev
        = review_can_act_now db rev := by
  have hst : statusOf db eid = some e.status := by
    unfold statusOf
    rw [he]
    rfl
  have hsub : submitterOf db eid = some e.submitted_by := by
    unfold submitterOf
    rw [he]
    rfl
  rw [fully_now_eq db eid e.status e.submitted_by hst hsub] at hff
  have hsw : (check_expense_approval_status e.status (tasksOf db eid)
      (findRule db e.submitted_by)).sweep = false := by
    cases hr : findRule db e.submitted_by with
    | none => exact (check_none_out e.status (tasksOf db eid)).2.2
    | some rule =>
      rw [hr] at hff
      rw [check_some_resp_fully] at hff
      rw [check_some_unfold, build_some_sweep, hff]
      simp
  have htasks : tasksOf (check_status_db db eid).1 eid = tasksOf db eid :=
    check_status_db_tasksOf_self_nosweep db eid e he hsw
  have hst' := check_status_db_statusOf_self db eid e he
  have hsub' : submitterOf (check_status_db db eid).1 eid
      = some e.submitted_by := by
    rw [check_status_db_submitter]
    exact hsub
  have hrules := check_status_db_rules db eid
  refine ⟨htasks, ?_, ?_⟩
  · rw [fully_now_eq (check_status_db db eid).1 eid _ e.submitted_by hst' hsub',
      htasks, findRule_congr _ db _ hrules]
    cases hr : findRule db e.submitted_by with
    | some rule =>
      rw [hr] at hff
      rw [check_some_resp_fully] at hff ⊢
      exact hff
    | none =>
      rw [hr] at hff
      rw [check_none_resp_fully] at hff
      rw [check_none_resp_fully, (check_none_out e.status (tasksOf db eid)).1]
      cases hstat : e.status <;> rw [hstat] at hff <;> simp_all
  · intro rev hrev
    apply review_can_act_congr
    · rw [hrev, hsub', hsub]
    · rw [hrev]
      exact htasks
    · exact hrules

theorem goodReview_check_other (db : Db) (eid : Nat) (r : Review)
    (hx : r.expense_id ≠ eid) (hg : goodReview db r) :
    goodReview (check_status_db db eid).1 r := by
  obtain ⟨h1, h2, h3⟩ := hg
  refine ⟨?_, ?_, h3⟩
  · rw [fully_now_congr (check_status_db db eid).1 db r.expense_id
      (check_status_db_statusOf_ne db eid _ hx)
      (check_status_db_submitter db eid _)
      (check_status_db_tasksOf_ne db eid _ hx)
      (check_status_db_rules db eid)]
    exact h1
  · rw [review_can_act_congr (check_status_db db eid).1 db r
      (check_status_db_submitter db eid _)
      (check_status_db_tasksOf_ne db eid _ hx)
      (check_status_db_rules db eid)]
    exact h2

theorem auto_approve_frames (db : Db) (eid x : Nat) (hx : x ≠ eid) :
    statusOf (auto_approve_expense_db db eid) x = statusOf db x ∧
    submitterOf (auto_approve_expense_db db eid) x = submitterOf db x ∧
    tasksOf (auto_approve_expense_db db eid) x = tasksOf db x ∧
    (auto_approve_expense_db db eid).rules = db.rules := by
  unfold auto_approve_expense_db
  cases he : findExpense db eid with
  | none => exact ⟨rfl, rfl, rfl, rfl⟩
  | some e =>
    dsimp only
    refine ⟨?_, ?_, ?_, rfl⟩
    · rw [statusOf_sweepExpenseTasks, statusOf_setExpenseStatus_ne _ _ _ _ hx]
    · rw [submitterOf_sweepExpenseTasks, submitterOf_setExpenseStatus]
    · rw [tasksOf_sweepExpenseTasks_ne _ _ _ hx, tasksOf_setExpenseStatus]

theorem goodReview_auto_other (db : Db) (eid : Nat) (r : Review)
    (hx : r.expense_id ≠ eid) (hg : goodReview db r) :
    goodReview (auto_approve_expense_db db eid) r := by
  obtain ⟨hs, hb, ht, hr⟩ := auto_approve_frames db eid r.expense_id hx
  obtain ⟨h1, h2, h3⟩ := hg
  refine ⟨?_, ?_, h3⟩
  · rw [fully_now_congr (auto_approve_expense_db db eid) db r.expense_id hs hb ht hr]
    exact h1
  · rw [review_can_act_congr (auto_approve_expense_db db eid) db r hb ht hr]
    exact h2

theorem review_can_act_now_eq (db : Db) (r : Review) (t : TaskRow)
    (h1 : r.my_approval_step = t.sequence_order)
    (h2 : r.is_manager_approval = t.is_manager_approval) :
    review_can_act_now db r = can_approve_now_db db r.expense_id t := by
  unfold review_can_act_now can_approve_now_db submitterOf
  cases hf : findExpense db r.expense_id with
  | none => rfl
  | some e =>
    dsimp only [Option.map_some']
    exact can_ignores_acting_fields true (findRule db e.submitted_by)
      (tasksOf db r.expense_id) _ t.toTask (by simpa [TaskRow.toTask] using h2)
      (by simpa [TaskRow.toTask] using h1)

/-- One iteration of the pending-reviews loop preserves goodness of the
accumulated reviews and only appends good ones. -/
theorem pending_reviews_step_preserves (acc : Db × List Review) (t : TaskRow)
    (h : ∀ r ∈ acc.2, goodReview acc.1 r) :
    ∀ r ∈ (pending_reviews_step acc t).2,
      goodReview (pending_reviews_step acc t).1 r := by
  obtain ⟨db, revs⟩ := acc
  unfold pending_reviews_step
  cases he : findExpense db t.expense_id with
  | none =>
    dsimp only
    exact h
  | some e =>
    dsimp only
    have heid : e.id = t.expense_id := by simpa using List.find?_some he
    have he' : findExpense db e.id = some e := by
      rw [heid]
      exact he
    cases hr2 : (check_status_db db e.id).2 with
    | none =>
      rw [check_status_db_snd db e.id e he'] at hr2
      cases hr2
    | some resp =>
      dsimp only
      have hresp : resp = (check_expense_approval_status e.status
          (tasksOf db e.id) (findRule db e.submitted_by)).resp := by
        have hs := check_status_db_snd db e.id e he'
        rw [hr2] at hs
        exact Option.some_injective _ hs
      have hfnow : expense_fully_approved_now db e.id
          = resp.is_fully_approved := by
        have hst : statusOf db e.id = some e.status := by
          unfold statusOf
          rw [he']
          rfl
        have hsub : submitterOf db e.id = some e.submitted_by := by
          unfold submitterOf
          rw [he']
          rfl
        rw [fully_now_eq db e.id e.status e.submitted_by hst hsub, hresp]
      by_cases hful : resp.is_fully_approved = true
      · simp only [hful, if_true]
        intro r hrmem
        have hg := h r hrmem
        have hrne : r.expense_id ≠ e.id := by
          intro hcontra
          have hx := hg.1
          rw [hcontra, hfnow, hful] at hx
          simp at hx
        exact goodReview_auto_other _ e.id r hrne
          (goodReview_check_other db e.id r hrne hg)
      · have hful' : resp.is_fully_approved = false := by
          cases hb : resp.is_fully_approved
          · rfl
          · exact absurd hb hful
        simp only [hful', Bool.false_eq_true, if_false]
        have hffdb : expense_fully_approved_now db e.id = false := by
          rw [hfnow, hful']
        have hstab := check_preserves_same db e.id e he' hffdb
        by_cases hcan : can_approve_now_db (check_status_db db e.id).1 e.id t
            = true
        · simp only [hcan, Bool.not_true, Bool.false_eq_true, if_false]
          intro r hrmem
          rw [List.mem_append] at hrmem
          rcases hrmem with hold | hnew
          · have hg := h r hold
            by_cases hrne : r.expense_id = e.id
            · refine ⟨?_, ?_, hg.2.2⟩
              · rw [hrne]
                exact hstab.2.1
              · rw [hstab.2.2 r hrne]
                exact hg.2.1
            · exact goodReview_check_other db e.id r hrne hg
          · rw [List.mem_singleton] at hnew
            subst hnew
            refine ⟨hstab.2.1, ?_, rfl⟩
            rw [review_can_act_now_eq _ _ t rfl rfl]
            exact hcan
        · have hcan' : can_approve_now_db (check_status_db db e.id).1 e.id t
              = false := by
            cases hb : can_approve_now_db (check_status_db db e.id).1 e.id t
            · rfl
            · exact absurd hb hcan
          simp only [hcan', Bool.not_false, if_true]
          intro r hrmem
          have hg := h r hrmem
          by_cases hrne : r.expense_id = e.id
          · refine ⟨?_, ?_, hg.2.2⟩
            · rw [hrne]
              exact hstab.2.1
            · rw [hstab.2.2 r hrne]
              exact hg.2.1
          · exact goodReview_check_other db e.id r hrne hg

theorem foldl_pending_reviews_good (l : List TaskRow) (acc : Db × List Review)
    (h : ∀ r ∈ acc.2, goodReview acc.1 r) :
    ∀ r ∈ (l.foldl pending_reviews_step acc).2,
      goodReview (l.foldl pending_reviews_step acc).1 r := by
  induction l generalizing acc with
  | nil => simpa using h
  | cons t rest ih =>
    rw [List.foldl_cons]
    exact ih _ (pending_reviews_step_preserves acc t h)

/-- Claim C8: the manager pending view re-evaluates each task's expense
before filtering; every returned review belongs to an expense that the
evaluator does not consider fully approved in the resulting database state
(such expenses are auto-approved and skipped instead), and every returned
review's task passes the `_can_manager_approve_now` eligibility check in
that state. -/
theorem c8_pending_view_filters (db : Db) (m : Nat) :
    ∀ r ∈ (get_manager_pending_reviews db m).2,
      expense_fully_approved_now (get_manager_pending_reviews db m).1
          r.expense_id = false ∧
      review_can_act_now (get_manager_pending_reviews db m).1 r = true ∧
      r.can_approve_now = true := by
  intro r hr
  exact foldl_pending_reviews_good _ (db, []) (by simp) r hr

theorem dbW_reviews_eval :
    (get_manager_pending_reviews dbW 7).2 = [reviewW] := by
  simp [get_manager_pending_reviews, dbW, reviewW, List.foldl_cons,
    List.foldl_nil, pending_reviews_step, check_status_db, findExpense,
    findRule, tasksOf, TaskRow.toTask, setExpenseStatus, sweepExpenseTasks,
    can_approve_now_db, can_manager_approve_now, check_expense_approval_status,
    build_approval_status_response, is_fully_approved_inline,
    is_fully_approved_resp, approval_percentage_inline, approval_percentage_resp,
    approved_count_inline, approved_count_resp, total_required_inline,
    manager_approved_of, check_sequential_requirements,
    check_approval_progression, sortBySeq, seqReqLoop, progressionLoopSeq,
    List.mergeSort, List.find?_cons, List.find?_nil, List.filter_cons,
    List.filter_nil, List.any_cons, List.any_nil]
  norm_num [TaskRow.toTask]

/-- Claim C8 witness: on the one-expense database `dbW` the view returns
exactly `reviewW`, and the theorem instantiates at it. -/
theorem c8_view_witness :
    reviewW ∈ (get_manager_pending_reviews dbW 7).2 ∧
    expense_fully_approved_now (get_manager_pending_reviews dbW 7).1
        reviewW.expense_id = false ∧
    review_can_act_now (get_manager_pending_reviews dbW 7).1 reviewW = true ∧
    reviewW.can_approve_now = true := by
  have hmem : reviewW ∈ (get_manager_pending_reviews dbW 7).2 := by
    rw [dbW_reviews_eval]
    simp
  have h := c8_pending_view_filters dbW 7 reviewW hmem
  exact ⟨hmem, h.1, h.2.1, h.2.2⟩

end ExpenseApproval
